import Mathlib

/-!
Verification of the deployment orchestration engine of the `luma` CLI
(`src/commands/deploy.ts`), as a shallow embedding in Lean 4.

Each TypeScript function of the deploy command is translated into an
executable Lean definition.  Remote side effects (docker build, push, pull,
login, container create, ...) are recorded as events in a trace; an
environment record fixes the outcome of every external call, so the
orchestration logic itself is deterministic and computable.  A thrown
JavaScript error is modelled as an `Option String` result component that
callers either propagate (no try/catch in the source), swallow (catch that
only logs) or turn into a non-zero exit status (top-level catch).
-/

namespace Luma

/-- Secret map: `secrets[key]` in JS gives a string or `undefined`. -/
def Smap : Type := String → Option String

/-- JS truthiness for an optional string: `undefined` and the empty string
are falsy.  Used wherever the source gates on `x?.field` or `if (value)`. -/
def truthy (o : Option String) : Option String :=
  match o with
  | none => none
  | some s => if s = "" then none else some s

/-- Registry block that an app or service entry may carry
(`entry.registry` in `config/types`): url, username, password secret key. -/
structure Registry where
  url : Option String
  username : Option String
  password_secret : Option String
deriving DecidableEq

/-- Project-level docker block (`config.docker`): default registry and
username; the matching password lives in the `DOCKER_REGISTRY_PASSWORD`
secret. -/
structure DockerGlobalConfig where
  registry : Option String
  username : Option String
deriving DecidableEq

/-- Proxy block of an app entry (`appEntry.proxy`). -/
structure ProxySpec where
  hosts : List String
  app_port : Option Nat
deriving DecidableEq

/-- App entry as `deploy.ts` consumes it: name, image, target servers,
optional registry override, optional proxy block.  Build spec, ports,
volumes and environment do not influence the claims and are kept out of
the trace model (the build outcome is an environment flag). -/
structure AppEntry where
  name : String
  image : String
  servers : List String
  registry : Option Registry
  proxy : Option ProxySpec
deriving DecidableEq

/-- Service entry: name, full image reference (tag included), target
servers, optional registry override. -/
structure ServiceEntry where
  name : String
  image : String
  servers : List String
  registry : Option Registry
deriving DecidableEq

/-- The union type `AppEntry | ServiceEntry` used throughout deploy.ts. -/
inductive Entry where
  | app (a : AppEntry)
  | service (s : ServiceEntry)
deriving DecidableEq

/-- `entry.name` on the union. -/
def Entry.name : Entry → String
  | .app a => a.name
  | .service s => s.name

/-- `entry.servers` on the union. -/
def Entry.servers : Entry → List String
  | .app a => a.servers
  | .service s => s.servers

/-- Loaded configuration (`LumaConfig`): project name, apps, services,
docker block.  `none` models an absent key (`config.apps` undefined). -/
structure LumaConfig where
  name : String
  apps : Option (List AppEntry)
  services : Option (List ServiceEntry)
  docker : Option DockerGlobalConfig

/-- Outcome of the remote `docker login` call: clean success, or a thrown
error carrying its message (`String(loginError)` in the source). -/
inductive LoginOutcome where
  | ok
  | err (msg : String)

/-- Environment: the outcome of every external call the deploy command
makes, per host / entry.  `gitStatus = none` models `execSync("git status
--porcelain")` throwing; `some out` is the raw stdout.  `bgOk` is the
success flag of `performBlueGreenDeployment` (src/commands/blue-green.ts,
a collaborator outside deploy.ts, visible here only through its
`{success, error}` result). -/
structure Env where
  gitStatus : Option String
  configLoadOk : Bool
  connectOk : String → Bool
  netProbeOk : String → Bool
  netExists : String → Bool
  proxyProbeOk : String → Bool
  proxyRunning : String → Bool
  buildOk : String → Bool
  pushOk : String → Bool
  loginOutcome : String → String → LoginOutcome
  pullOk : String → String → Bool
  bgOk : String → String → Bool
  stopOk : String → String → Bool
  createOk : String → String → Bool

/-- Remote side effects of one deploy run, in execution order. -/
inductive Event where
  | probe (server : String)
  | build (app : String)
  | push (app : String)
  | login (server registry : String)
  | pull (server image : String)
  | logout (server registry : String)
  | blueGreen (app server : String)
  | stopC (server container : String)
  | removeC (server container : String)
  | createC (server container : String)
  | prune (server : String)
  | proxyCfg (server host : String)
deriving DecidableEq

/-- Occurrence count of one event in a trace. -/
def countEv (e : Event) (l : List Event) : Nat :=
  (l.filter (fun x => x = e)).length

/-- Events that touch a server or the image store: everything except the
read-only infrastructure probe. -/
def isMutation : Event → Bool
  | .probe _ => false
  | _ => true

/-- Build-phase events (local `docker build` / `docker push`). -/
def isBuildPush : Event → Bool
  | .build _ => true
  | .push _ => true
  | _ => false

/-! ## Target resolution (`identifyTargetEntries`) -/

/-- The configured entries of the selected kind, normalized to a list
(`normalizeConfigEntries(config.apps)` / `(config.services)`; an absent
key yields `[]`). -/
def configuredOfKind (deployServicesFlag : Bool) (cfg : LumaConfig) : List Entry :=
  if deployServicesFlag then (cfg.services.getD []).map Entry.service
  else (cfg.apps.getD []).map Entry.app

/-- The `entryNames.forEach` lookup loop: each requested name is looked up
with `find` against the configured entries; a hit is pushed onto the
targets, a miss is warned (second component collects the unmatched
names). -/
def selectNamed (configured : List Entry) : List String → List Entry × List String
  | [] => ([], [])
  | n :: rest =>
    let r := selectNamed configured rest
    match configured.find? (fun e => e.name = n) with
    | some e => (e :: r.1, r.2)
    | none => (r.1, n :: r.2)

/-- `identifyTargetEntries(entryNames, deployServicesFlag, config)`:
no names selects every configured entry of the kind; otherwise each name
is looked up in caller order, unmatched names are warned and skipped.
Returns (targets, unmatched names). -/
def identifyTargetEntries (entryNames : List String) (deployServicesFlag : Bool)
    (cfg : LumaConfig) : List Entry × List String :=
  let configured := configuredOfKind deployServicesFlag cfg
  if entryNames.isEmpty then (configured, [])
  else selectNamed configured entryNames

/-! ## Registry authenticator (`authenticateAndPullImage`,
`performRegistryLogin`) -/

/-- A username/password pair handed to `docker login`. -/
structure Creds where
  username : String
  password : String
deriving DecidableEq

/-- `entryRegistry?.url || globalRegistryConfig?.registry || "docker.io"`:
the effective registry URL, resolved by JS short-circuit or. -/
def resolveImageRegistry (entryReg : Option Registry)
    (glob : Option DockerGlobalConfig) : String :=
  match truthy (entryReg.bind Registry.url) with
  | some u => u
  | none =>
    match truthy (glob.bind DockerGlobalConfig.registry) with
    | some r => r
    | none => "docker.io"

/-- The global else-if branch: `globalRegistryConfig?.username &&
context.secrets.DOCKER_REGISTRY_PASSWORD` gates a login with those two. -/
def globalCreds (glob : Option DockerGlobalConfig) (secrets : Smap) : Option Creds :=
  match glob with
  | none => none
  | some g =>
    match truthy g.username, truthy (secrets "DOCKER_REGISTRY_PASSWORD") with
    | some u, some pw => some ⟨u, pw⟩
    | _, _ => none

/-- `entryRegistry?.username && entryRegistry?.password_secret`: whether
the entry-level credential branch is taken at all. -/
def entryCredGate (r : Registry) : Bool :=
  (truthy r.username).isSome && (truthy r.password_secret).isSome

/-- The credential pair `authenticateAndPullImage` logs in with, if any:
the entry branch when its gate holds (no fallback to the global branch
from inside it, even when the secret is missing or empty), the global
branch otherwise. -/
def resolveLoginCreds (entryReg : Option Registry)
    (glob : Option DockerGlobalConfig) (secrets : Smap) : Option Creds :=
  match entryReg with
  | some r =>
    if entryCredGate r then
      match truthy r.username, truthy r.password_secret with
      | some u, some ps =>
        match truthy (secrets ps) with
        | some pw => some ⟨u, pw⟩
        | none => none
      | _, _ => none
    else globalCreds glob secrets
  | none => globalCreds glob secrets

/-- Substring test over character lists (JS `String.prototype.includes`):
`beginsWith p s` is `p` being an initial segment of `s`. -/
def beginsWith : List Char → List Char → Bool
  | [], _ => true
  | _ :: _, [] => false
  | p :: ps, c :: cs => p = c && beginsWith ps cs

/-- `containsSeq pat s`: `pat` occurs contiguously somewhere in `s`. -/
def containsSeq : List Char → List Char → Bool
  | pat, [] => pat.isEmpty
  | pat, c :: rest => beginsWith pat (c :: rest) || containsSeq pat rest

/-- `errorMessage.includes(pat)`. -/
def strIncludes (s pat : String) : Bool :=
  containsSeq pat.toList s.toList

/-- The docker warning text matched in `performRegistryLogin`. -/
def unencryptedWarning : String :=
  "WARNING! Your password will be stored unencrypted"

/-- `performRegistryLogin`: result is (logged a success message, thrown
error).  A clean login logs success; a thrown login error whose message
contains the unencrypted-password warning is logged as success; any other
login error is logged as an error.  No branch rethrows, so the second
component is always `none`. -/
def performRegistryLogin (outcome : LoginOutcome) : Bool × Option String :=
  match outcome with
  | .ok => (true, none)
  | .err m =>
    if strIncludes m unencryptedWarning then (true, none)
    else (false, none)

/-- `authenticateAndPullImage(entry, dockerClientRemote, context,
imageToPull)` on `server`: resolve the registry URL and credentials, log
in when credentials resolved, pull, log out iff a login happened (before
the failed-pull error is thrown), and throw when the pull reported
failure. -/
def authenticateAndPullImage (env : Env) (entryReg : Option Registry)
    (glob : Option DockerGlobalConfig) (secrets : Smap)
    (server image : String) : List Event × Option String :=
  let reg := resolveImageRegistry entryReg glob
  let pullErr : Option String :=
    if env.pullOk server image then none
    else some ("Failed to pull image " ++ image)
  match resolveLoginCreds entryReg glob secrets with
  | some _ =>
    match (performRegistryLogin (env.loginOutcome server reg)).2 with
    | some e => ([Event.login server reg], some e)
    | none =>
      ([Event.login server reg, Event.pull server image, Event.logout server reg],
       pullErr)
  | none => ([Event.pull server image], pullErr)

/-! ## Sequential loops

Every per-entry and per-server loop in deploy.ts is a plain `for ... of`
with `await` and no internal try/catch: a thrown error aborts the rest of
the loop and propagates.  `runSeq` captures that shape: it concatenates
traces and stops at the first step that throws. -/

/-- Run `f` over the list left to right, accumulating events; a thrown
error (second component `some`) aborts the remaining iterations. -/
def runSeq (f : α → List Event × Option String) : List α → List Event × Option String
  | [] => ([], none)
  | x :: xs =>
    match f x with
    | (evs, some e) => (evs, some e)
    | (evs, none) =>
      let r := runSeq f xs
      (evs ++ r.1, r.2)

/-! ## Build phase (`buildAndPushApp`, `buildOrTagAppImage`, `pushAppImage`) -/

/-- `buildAndPushApp(appEntry, context)`: build or tag the image (a failed
build returns false and `buildAndPushApp` throws), then push (a failed
push throws).  Both attempts are recorded; the error propagates to the
caller. -/
def buildAndPushApp (env : Env) (app : AppEntry) : List Event × Option String :=
  if env.buildOk app.name then
    ([Event.build app.name, Event.push app.name],
     if env.pushOk app.name then none else some ("Failed to push image " ++ app.image))
  else ([Event.build app.name], some "Image build failed")

/-! ## Blue-green per-server deployment (`deployAppToServer`,
`deployAppToServers`, `configureProxyForApp`) -/

/-- `configureProxyForApp`: nothing when the app has no proxy hosts;
otherwise one configuration command per host, each failure caught and
logged inside the loop, so every host is attempted and nothing is
thrown. -/
def configureProxyForApp (app : AppEntry) (server : String) : List Event :=
  match app.proxy with
  | none => []
  | some p =>
    if p.hosts.isEmpty then []
    else p.hosts.map (Event.proxyCfg server)

/-- `deployAppToServer(appEntry, serverHostname, context, isLastServer)`:
connect over SSH, authenticate and pull `{image}:{releaseId}`, run the
blue-green deployment, configure the proxy.  The surrounding try/catch
logs the server error and rethrows it, so any failure propagates to the
caller. -/
def deployAppToServer (env : Env) (cfg : LumaConfig) (secrets : Smap)
    (releaseId : String) (app : AppEntry) (server : String) :
    List Event × Option String :=
  if env.connectOk server then
    match authenticateAndPullImage env app.registry cfg.docker secrets server
        (app.image ++ ":" ++ releaseId) with
    | (evs, some e) => (evs, some e)
    | (evs, none) =>
      if env.bgOk app.name server then
        (evs ++ [Event.blueGreen app.name server] ++ configureProxyForApp app server,
         none)
      else (evs ++ [Event.blueGreen app.name server], some "Deployment failed")
  else ([], some ("SSH connection failed for " ++ server))

/-- `deployAppToServers(appEntry, context)`: the servers of the app, one
at a time, in order, with no try/catch around the loop body. -/
def deployAppToServers (env : Env) (cfg : LumaConfig) (secrets : Smap)
    (releaseId : String) (app : AppEntry) : List Event × Option String :=
  runSeq (deployAppToServer env cfg secrets releaseId app) app.servers

/-! ## Service replacement (`replaceServiceContainer`,
`deployServiceToServer`, `deployService`) -/

/-- `replaceServiceContainer(serviceEntry, dockerClient, serverHostname,
context)`: best-effort stop and remove of the stable-name container (one
try/catch around both, a stop failure skips the remove attempt and only
warns), then create the new container under the same name; a failed
create throws. -/
def replaceServiceContainer (env : Env) (svc : ServiceEntry) (server : String) :
    List Event × Option String :=
  let n := svc.name
  let sr : List Event :=
    if env.stopOk server n then [Event.stopC server n, Event.removeC server n]
    else [Event.stopC server n]
  (sr ++ [Event.createC server n],
   if env.createOk server n then none else some ("Failed to create container " ++ n))

/-- `deployServiceToServer`: connect, authenticate and pull the service
image, replace the container, prune.  The whole body sits in a try/catch
that logs the error and does not rethrow, so a failure never escapes this
function. -/
def deployServiceToServer (env : Env) (cfg : LumaConfig) (secrets : Smap)
    (svc : ServiceEntry) (server : String) : List Event :=
  if env.connectOk server then
    match authenticateAndPullImage env svc.registry cfg.docker secrets server svc.image with
    | (evs, some _) => evs
    | (evs, none) =>
      match replaceServiceContainer env svc server with
      | (revs, some _) => evs ++ revs
      | (revs, none) => evs ++ revs ++ [Event.prune server]
  else []

/-- `deployService`: every server of the service, in order; per-server
failures were already swallowed, so the loop always completes. -/
def deployService (env : Env) (cfg : LumaConfig) (secrets : Smap)
    (svc : ServiceEntry) : List Event :=
  (svc.servers.map (deployServiceToServer env cfg secrets svc)).flatten

/-! ## Infrastructure verification (`verifyInfrastructure`) -/

/-- The JS `Set` of all servers of the target entries, in insertion
order. -/
def insertUnique (l : List String) (s : String) : List String :=
  if s ∈ l then l else l ++ [s]

/-- `allTargetServers`: distinct servers of the resolved entries. -/
def allTargetServers (entries : List Entry) : List String :=
  entries.foldl (fun acc e => e.servers.foldl insertUnique acc) []

/-- One iteration of the verification loop on host `s`: contributions to
(missing-network list, missing-proxy list).  A throw anywhere in the try
block (SSH connect, the network probe call, the proxy probe call) lands
in the catch, which appends `s` to both lists; otherwise each probe
contributes independently. -/
def probeServer (env : Env) (s : String) : List String × List String :=
  if env.connectOk s then
    if env.netProbeOk s then
      let netContrib : List String := if env.netExists s then [] else [s]
      if env.proxyProbeOk s then
        (netContrib, if env.proxyRunning s then [] else [s])
      else (netContrib ++ [s], [s])
    else ([s], [s])
  else ([s], [s])

/-- `verifyInfrastructure(targetEntries, config, secrets, networkName)`:
probe every distinct target server, aggregate the two missing lists.
Returns (probe events, missing-network servers, missing-proxy servers);
the caller throws iff either list is non-empty. -/
def verifyInfrastructure (env : Env) (entries : List Entry) :
    List Event × List String × List String :=
  let servers := allTargetServers entries
  (servers.map Event.probe,
   (servers.map (fun s => (probeServer env s).1)).flatten,
   (servers.map (fun s => (probeServer env s).2)).flatten)

/-! ## Top-level orchestration (`deployEntries`, `deployCommand`,
`hasUncommittedChanges`, `checkUncommittedChanges`) -/

/-- The app entries of the target list (the `entry as AppEntry` casts of
the app branch; in the app branch every entry is one). -/
def appsOf (entries : List Entry) : List AppEntry :=
  entries.filterMap fun e =>
    match e with
    | .app a => some a
    | .service _ => none

/-- The service entries of the target list. -/
def servicesOf (entries : List Entry) : List ServiceEntry :=
  entries.filterMap fun e =>
    match e with
    | .app _ => none
    | .service s => some s

/-- `deployEntries(context)`: for apps, one build-and-push loop over every
entry, then one deploy loop over every entry; for services, a single
deploy loop whose steps never throw. -/
def deployEntries (env : Env) (cfg : LumaConfig) (secrets : Smap)
    (releaseId : String) (deployServicesFlag : Bool) (entries : List Entry) :
    List Event × Option String :=
  if deployServicesFlag then
    (((servicesOf entries).map (deployService env cfg secrets)).flatten, none)
  else
    match runSeq (buildAndPushApp env) (appsOf entries) with
    | (bEvs, some e) => (bEvs, some e)
    | (bEvs, none) =>
      let d := runSeq (deployAppToServers env cfg secrets releaseId) (appsOf entries)
      (bEvs ++ d.1, d.2)

/-- `hasUncommittedChanges`: `git status --porcelain`, trimmed, non-empty.
When `execSync` throws (e.g. not a git repository) the catch logs and
returns false.  Non-emptiness of the trimmed output is equivalent to the
raw output holding some non-whitespace character. -/
def hasUncommittedChanges (env : Env) : Bool :=
  match env.gitStatus with
  | none => false
  | some out => out.toList.any (fun c => !c.isWhitespace)

/-- `checkUncommittedChanges(forceFlag)`: throws (result `some`) iff the
force flag is off and the working tree reports uncommitted changes. -/
def checkUncommittedChanges (force : Bool) (env : Env) : Option String :=
  if !force && hasUncommittedChanges env then some "Uncommitted changes detected"
  else none

/-- Parsed flags of the deploy invocation. -/
structure Args where
  entryNames : List String
  force : Bool
  servicesFlag : Bool

/-- `deployCommand(rawEntryNamesAndFlags)` as (trace, exit status):
git-status gate (`checkUncommittedChanges` throws on a dirty tree without
`--force`), configuration load, target resolution (an empty target set
logs an error and returns — the normal, zero exit path), infrastructure
verification (a non-empty missing list throws), then `deployEntries`.
Every thrown error reaches the top-level catch, which calls
`process.exit(1)`. -/
def deployCommand (env : Env) (args : Args) (cfg : LumaConfig) (secrets : Smap)
    (releaseId : String) : List Event × Nat :=
  if (checkUncommittedChanges args.force env).isSome then ([], 1)
  else if !env.configLoadOk then ([], 1)
  else
    let targets := (identifyTargetEntries args.entryNames args.servicesFlag cfg).1
    if targets.isEmpty then ([], 0)
    else
      let v := verifyInfrastructure env targets
      if v.2.1.length > 0 || v.2.2.length > 0 then (v.1, 1)
      else
        let d := deployEntries env cfg secrets releaseId args.servicesFlag targets
        (v.1 ++ d.1, if d.2.isSome then 1 else 0)

/-! ## Concrete fixtures for counterexamples and witnesses -/

/-- Empty secret file. -/
def secretsEmpty : Smap := fun _ => none

/-- Secrets holding only the project-wide registry password. -/
def secretsGlobal : Smap := fun k =>
  if k = "DOCKER_REGISTRY_PASSWORD" then some "gpw" else none

/-- A run in which every external call succeeds. -/
def envBase : Env where
  gitStatus := some ""
  configLoadOk := true
  connectOk := fun _ => true
  netProbeOk := fun _ => true
  netExists := fun _ => true
  proxyProbeOk := fun _ => true
  proxyRunning := fun _ => true
  buildOk := fun _ => true
  pushOk := fun _ => true
  loginOutcome := fun _ _ => LoginOutcome.ok
  pullOk := fun _ _ => true
  bgOk := fun _ _ => true
  stopOk := fun _ _ => true
  createOk := fun _ _ => true

/-- An app with two target servers. -/
def webApp : AppEntry where
  name := "web"
  image := "img/web"
  servers := ["s1", "s2"]
  registry := none
  proxy := none

/-- Configuration holding only `webApp`. -/
def cfgWeb : LumaConfig where
  name := "proj"
  apps := some [webApp]
  services := none
  docker := none

/-- Configuration with no apps and no services. -/
def cfgEmpty : LumaConfig where
  name := "proj"
  apps := none
  services := none
  docker := none

/-- Plain `luma deploy` with no names and no flags. -/
def argsNone : Args where
  entryNames := []
  force := false
  servicesFlag := false

/-- Like `envBase`, but the blue-green deployment fails on `s1`. -/
def envBgFailS1 : Env :=
  { envBase with bgOk := fun _ s => s != "s1" }

/-- Like `envBase`, but the proxy liveness probe throws on every host:
the SSH connect and the network probe succeed, the transport error hits
mid-verification. -/
def envProxyProbeThrows : Env :=
  { envBase with proxyProbeOk := fun _ => false }

/-- A service entry on one server. -/
def dbService : ServiceEntry where
  name := "db"
  image := "postgres:15"
  servers := ["s1"]
  registry := none

/-- Project-level docker block with a username but no registry url. -/
def globNoUrl : DockerGlobalConfig where
  registry := none
  username := some "globaluser"

/-- A docker login error message carrying the unencrypted-password
notice. -/
def warnMsg : String :=
  "Error: WARNING! Your password will be stored unencrypted in config.json"

/-! ## Helper lemmas -/

/-- `performRegistryLogin` never rethrows: both the warning branch and the
plain error branch only log. -/
theorem performRegistryLogin_no_throw (o : LoginOutcome) :
    (performRegistryLogin o).2 = none := by
  cases o with
  | ok => rfl
  | err m =>
    simp only [performRegistryLogin]
    split <;> rfl

/-- The trace of `authenticateAndPullImage`, in closed form: a login and a
logout bracket the pull exactly when credentials resolved. -/
theorem authenticateAndPullImage_trace (env : Env) (entryReg : Option Registry)
    (glob : Option DockerGlobalConfig) (secrets : Smap) (server image : String) :
    (authenticateAndPullImage env entryReg glob secrets server image).1
      = (match resolveLoginCreds entryReg glob secrets with
         | some _ =>
           [Event.login server (resolveImageRegistry entryReg glob),
            Event.pull server image,
            Event.logout server (resolveImageRegistry entryReg glob)]
         | none => [Event.pull server image]) := by
  unfold authenticateAndPullImage
  cases resolveLoginCreds entryReg glob secrets with
  | none => rfl
  | some c =>
    simp only [performRegistryLogin_no_throw]

/-- The thrown error of `authenticateAndPullImage`, in closed form: only a
failed pull throws. -/
theorem authenticateAndPullImage_err (env : Env) (entryReg : Option Registry)
    (glob : Option DockerGlobalConfig) (secrets : Smap) (server image : String) :
    (authenticateAndPullImage env entryReg glob secrets server image).2
      = (if env.pullOk server image then none
         else some ("Failed to pull image " ++ image)) := by
  unfold authenticateAndPullImage
  cases resolveLoginCreds entryReg glob secrets with
  | none => rfl
  | some c =>
    simp only [performRegistryLogin_no_throw]

/-- Every event produced by a `runSeq` loop comes from one step. -/
theorem runSeq_events {α : Type} (f : α → List Event × Option String)
    (p : Event → Prop) (hf : ∀ x, ∀ e ∈ (f x).1, p e) :
    ∀ l : List α, ∀ e ∈ (runSeq f l).1, p e := by
  intro l
  induction l with
  | nil => intro e he; simp [runSeq] at he
  | cons x xs ih =>
    intro e he
    simp only [runSeq] at he
    cases hfx : f x with
    | mk evs err =>
      rw [hfx] at he
      cases err with
      | some msg =>
        simp only at he
        have := hf x e
        rw [hfx] at this
        exact this he
      | none =>
        simp only [List.mem_append] at he
        rcases he with h1 | h2
        · have := hf x e
          rw [hfx] at this
          exact this h1
        · exact ih e h2

/-- A `for ... of` loop with no try/catch stops at the first throwing
step: the steps before it succeed and contribute their traces, the
failing step contributes its trace and its error, the steps after it are
never run. -/
theorem runSeq_append_abort {α : Type} (f : α → List Event × Option String)
    (pre : List α) (x : α) (post : List α)
    (hpre : ∀ y ∈ pre, (f y).2 = none)
    (hx : (f x).2.isSome = true) :
    runSeq f (pre ++ x :: post)
      = ((pre.map (fun y => (f y).1)).flatten ++ (f x).1, (f x).2) := by
  induction pre with
  | nil =>
    simp only [List.nil_append, List.map_nil, List.flatten_nil, runSeq]
    cases hfx : f x with
    | mk evs err =>
      cases err with
      | none => rw [hfx] at hx; simp at hx
      | some e => simp
  | cons y ys ih =>
    have hy : (f y).2 = none := hpre y (List.mem_cons_self y ys)
    simp only [List.cons_append, runSeq]
    cases hfy : f y with
    | mk evs err =>
      rw [hfy] at hy
      simp only at hy
      subst hy
      simp only [List.append_eq]
      rw [ih (fun z hz => hpre z (List.mem_cons_of_mem _ hz))]
      simp [hfy, List.append_assoc]

/-- Every trace of a successful-prefix `runSeq` run splits per step; when
every step succeeds, the loop returns no error and the concatenation of
all step traces. -/
theorem runSeq_all_ok {α : Type} (f : α → List Event × Option String)
    (l : List α) (h : ∀ y ∈ l, (f y).2 = none) :
    runSeq f l = ((l.map (fun y => (f y).1)).flatten, none) := by
  induction l with
  | nil => rfl
  | cons y ys ih =>
    have hy : (f y).2 = none := h y (List.mem_cons_self y ys)
    simp only [runSeq, List.map_cons, List.flatten_cons]
    cases hfy : f y with
    | mk evs err =>
      rw [hfy] at hy
      simp only at hy
      subst hy
      simp only [List.append_eq]
      rw [ih (fun z hz => h z (List.mem_cons_of_mem _ hz))]

/-- Build-phase steps only produce build and push events. -/
theorem buildAndPushApp_events (env : Env) (a : AppEntry) :
    ∀ e ∈ (buildAndPushApp env a).1, isBuildPush e = true := by
  intro e he
  unfold buildAndPushApp at he
  split at he <;> simp only [List.mem_cons, List.mem_singleton] at he
  · rcases he with rfl | rfl | h
    · rfl
    · rfl
    · cases h
  · rcases he with rfl | h
    · rfl
    · cases h

/-- The registry authenticator produces no build or push event. -/
theorem authenticateAndPullImage_no_buildPush (env : Env)
    (entryReg : Option Registry) (glob : Option DockerGlobalConfig)
    (secrets : Smap) (server image : String) :
    ∀ e ∈ (authenticateAndPullImage env entryReg glob secrets server image).1,
      isBuildPush e = false := by
  intro e he
  rw [authenticateAndPullImage_trace] at he
  cases hcr : resolveLoginCreds entryReg glob secrets with
  | none =>
    rw [hcr] at he
    simp only [List.mem_singleton] at he
    subst he; rfl
  | some c =>
    rw [hcr] at he
    simp only [List.mem_cons, List.mem_singleton] at he
    rcases he with rfl | rfl | rfl | h
    · rfl
    · rfl
    · rfl
    · cases h

/-- The per-server blue-green deployment produces no build or push
event. -/
theorem deployAppToServer_no_buildPush (env : Env) (cfg : LumaConfig)
    (secrets : Smap) (releaseId : String) (a : AppEntry) (server : String) :
    ∀ e ∈ (deployAppToServer env cfg secrets releaseId a server).1,
      isBuildPush e = false := by
  intro e he
  unfold deployAppToServer at he
  by_cases hc : env.connectOk server = true
  · rw [if_pos hc] at he
    cases hauth : authenticateAndPullImage env a.registry cfg.docker secrets server
        (a.image ++ ":" ++ releaseId) with
    | mk evs err =>
      rw [hauth] at he
      have hevs : ∀ e ∈ evs, isBuildPush e = false := by
        intro e2 he2
        have := authenticateAndPullImage_no_buildPush env a.registry cfg.docker secrets
          server (a.image ++ ":" ++ releaseId) e2
        rw [hauth] at this
        exact this he2
      cases err with
      | some msg => exact hevs e he
      | none =>
        simp only at he
        by_cases hbg : env.bgOk a.name server = true
        · rw [if_pos hbg] at he
          simp only [List.mem_append, List.mem_singleton] at he
          rcases he with (h1 | rfl) | h3
          · exact hevs e h1
          · rfl
          · unfold configureProxyForApp at h3
            cases hpx : a.proxy with
            | none => rw [hpx] at h3; cases h3
            | some p =>
              rw [hpx] at h3
              simp only at h3
              by_cases hp : p.hosts.isEmpty = true
              · rw [if_pos hp] at h3; cases h3
              · rw [if_neg hp] at h3
                rcases List.mem_map.mp h3 with ⟨h, _, rfl⟩
                rfl
        · rw [if_neg hbg] at he
          simp only [List.mem_append, List.mem_singleton] at he
          rcases he with h1 | rfl
          · exact hevs e h1
          · rfl
  · rw [if_neg hc] at he
    cases he

/-- A server loop (`runSeq` over `deployAppToServer`) produces no build or
push event either. -/
theorem deployAppToServers_no_buildPush (env : Env) (cfg : LumaConfig)
    (secrets : Smap) (releaseId : String) (a : AppEntry) :
    ∀ e ∈ (deployAppToServers env cfg secrets releaseId a).1,
      isBuildPush e = false :=
  runSeq_events (deployAppToServer env cfg secrets releaseId a)
    (fun e => isBuildPush e = false)
    (deployAppToServer_no_buildPush env cfg secrets releaseId a) a.servers

/-- `insertUnique` keeps what the accumulator already holds. -/
theorem mem_insertUnique_of_mem (acc : List String) (x a : String)
    (h : a ∈ acc) : a ∈ insertUnique acc x := by
  unfold insertUnique
  split
  · exact h
  · exact List.mem_append_left _ h

/-- `insertUnique` holds the inserted element. -/
theorem mem_insertUnique_self (acc : List String) (a : String) :
    a ∈ insertUnique acc a := by
  unfold insertUnique
  split
  · assumption
  · exact List.mem_append_right _ (List.mem_singleton.mpr rfl)

/-- Folding `insertUnique` over a list keeps the accumulator. -/
theorem mem_foldl_insertUnique_of_mem (l : List String) (acc : List String)
    (a : String) (h : a ∈ acc) : a ∈ l.foldl insertUnique acc := by
  induction l generalizing acc with
  | nil => simpa using h
  | cons x xs ih => exact ih _ (mem_insertUnique_of_mem acc x a h)

/-- Folding `insertUnique` over a list collects its members. -/
theorem mem_foldl_insertUnique_of_mem_list (l : List String) (acc : List String)
    (a : String) (h : a ∈ l) : a ∈ l.foldl insertUnique acc := by
  induction l generalizing acc with
  | nil => cases h
  | cons x xs ih =>
    rcases List.mem_cons.mp h with rfl | h2
    · exact mem_foldl_insertUnique_of_mem xs _ a (mem_insertUnique_self acc a)
    · exact ih _ h2

/-- The outer fold of `allTargetServers` keeps the accumulator. -/
theorem mem_entriesFold_of_mem (entries : List Entry) (acc : List String)
    (a : String) (h : a ∈ acc) :
    a ∈ entries.foldl (fun acc e => e.servers.foldl insertUnique acc) acc := by
  induction entries generalizing acc with
  | nil => simpa using h
  | cons e es ih => exact ih _ (mem_foldl_insertUnique_of_mem e.servers acc a h)

/-- The outer fold of `allTargetServers` collects every server of every
entry, whatever the accumulator. -/
theorem mem_entriesFold_of_mem_entry (entries : List Entry) (en : Entry)
    (s : String) (he : en ∈ entries) (hs : s ∈ en.servers) :
    ∀ acc, s ∈ entries.foldl (fun acc e => e.servers.foldl insertUnique acc) acc := by
  induction entries with
  | nil => cases he
  | cons e es ih =>
    intro acc
    rcases List.mem_cons.mp he with rfl | h2
    · exact mem_entriesFold_of_mem es _ s
        (mem_foldl_insertUnique_of_mem_list en.servers acc s hs)
    · exact ih h2 _

/-- Every server of every target entry lands in the distinct server set
`verifyInfrastructure` probes. -/
theorem mem_allTargetServers (entries : List Entry) (en : Entry) (s : String)
    (he : en ∈ entries) (hs : s ∈ en.servers) :
    s ∈ allTargetServers entries :=
  mem_entriesFold_of_mem_entry entries en s he hs []

/-- The name-lookup loop, in closed form: hits in caller order, misses
warned, others unaffected. -/
theorem selectNamed_eq (configured : List Entry) (names : List String) :
    selectNamed configured names
      = (names.filterMap (fun n => configured.find? (fun e => e.name = n)),
         names.filter
           (fun n => (configured.find? (fun e => e.name = n)).isNone)) := by
  induction names with
  | nil => rfl
  | cons n rest ih =>
    simp only [selectNamed, ih]
    cases hfind : configured.find? (fun e => e.name = n) with
    | some e => simp [List.filterMap_cons, List.filter_cons, hfind]
    | none => simp [List.filterMap_cons, List.filter_cons, hfind]

/-! ## The claims -/

/-- Claim C10: when the clean-workspace check itself fails to execute
(`git status` throws, e.g. outside a git repository), the workspace is
assumed clean and deployment proceeds without `--force`: the gate fails
open.  A run whose git probe throws behaves exactly like one whose git
probe reports a clean tree, down to an identical full deployment. -/
theorem c10_git_check_fails_open (env : Env) (force : Bool) :
    hasUncommittedChanges { env with gitStatus := none } = false
    ∧ checkUncommittedChanges force { env with gitStatus := none } = none
    ∧ deployCommand { envBase with gitStatus := none } argsNone cfgWeb secretsEmpty "r1"
      = deployCommand envBase argsNone cfgWeb secretsEmpty "r1"
    ∧ (deployCommand { envBase with gitStatus := none } argsNone cfgWeb
        secretsEmpty "r1").2 = 0 := by
  refine ⟨rfl, ?_, by decide, by decide⟩
  simp [checkUncommittedChanges, hasUncommittedChanges]

/-- Claim C2 counterexample: with an empty configuration the resolved
target set is empty and `deployCommand` aborts having mutated nothing —
but it returns through the early `return`, not through the top-level
catch, so the process exit status is 0, not non-zero as claimed. -/
theorem c2_counterexample :
    (identifyTargetEntries [] false cfgEmpty).1 = []
    ∧ deployCommand envBase argsNone cfgEmpty secretsEmpty "r1" = ([], 0) := by
  exact ⟨rfl, by decide⟩

/-- Claim C2 as amended: an empty resolved target set aborts the run
before any build, push, pull or container mutation (the trace is empty),
but via an early return with exit status 0 — only an error message is
logged, no non-zero exit occurs. -/
theorem c2_amended_empty_target_zero_exit (env : Env) (args : Args)
    (cfg : LumaConfig) (secrets : Smap) (releaseId : String)
    (hgit : checkUncommittedChanges args.force env = none)
    (hcfg : env.configLoadOk = true)
    (hempty : (identifyTargetEntries args.entryNames args.servicesFlag cfg).1 = []) :
    deployCommand env args cfg secrets releaseId = ([], 0) := by
  unfold deployCommand
  rw [hgit]
  simp [hcfg, hempty]

/-- Witness for the amended Claim C2 at a concrete empty configuration. -/
theorem c2_amended_witness :
    deployCommand envBase argsNone cfgEmpty secretsEmpty "r1" = ([], 0) :=
  c2_amended_empty_target_zero_exit envBase argsNone cfgEmpty secretsEmpty "r1"
    (by decide) rfl (by decide)

/-- Claim C7: explicit names are looked up in caller order among the
configured entries of the selected kind; each unmatched name produces a
warning (second component) and is skipped without affecting the others;
with no names the target set is all configured entries of the kind.  In
particular requesting two names of which only one is configured yields
exactly that one. -/
theorem c7_explicit_name_resolution (names : List String) (flag : Bool)
    (cfg : LumaConfig) :
    (identifyTargetEntries names flag cfg).1
      = (if names.isEmpty then configuredOfKind flag cfg
         else names.filterMap
           (fun n => (configuredOfKind flag cfg).find? (fun e => e.name = n)))
    ∧ (identifyTargetEntries names flag cfg).2
      = names.filter
          (fun n => ((configuredOfKind flag cfg).find? (fun e => e.name = n)).isNone) := by
  unfold identifyTargetEntries
  by_cases h : names.isEmpty = true
  · have hn : names = [] := List.isEmpty_iff.mp h
    subst hn
    simp
  · rw [if_neg h, if_neg h, selectNamed_eq]
    exact ⟨rfl, rfl⟩

/-- Claim C9: a registry login failure whose message carries the
unencrypted-password notice is classified as a success by matching that
message content, and the deployment proceeds exactly as after a clean
login. -/
theorem c9_unencrypted_warning_treated_as_success (env : Env)
    (entryReg : Option Registry) (glob : Option DockerGlobalConfig)
    (secrets : Smap) (server image m : String)
    (h : strIncludes m unencryptedWarning = true) :
    performRegistryLogin (LoginOutcome.err m) = performRegistryLogin LoginOutcome.ok
    ∧ (performRegistryLogin (LoginOutcome.err m)).1 = true
    ∧ authenticateAndPullImage
        { env with loginOutcome := fun _ _ => LoginOutcome.err m }
        entryReg glob secrets server image
      = authenticateAndPullImage
        { env with loginOutcome := fun _ _ => LoginOutcome.ok }
        entryReg glob secrets server image := by
  refine ⟨by simp [performRegistryLogin, h], by simp [performRegistryLogin, h], ?_⟩
  unfold authenticateAndPullImage
  cases resolveLoginCreds entryReg glob secrets with
  | none => rfl
  | some c => simp [performRegistryLogin, h]

/-- Witness for Claim C9 at a concrete docker warning message. -/
theorem c9_witness :
    performRegistryLogin (LoginOutcome.err warnMsg) = performRegistryLogin LoginOutcome.ok
    ∧ (performRegistryLogin (LoginOutcome.err warnMsg)).1 = true
    ∧ authenticateAndPullImage
        { envBase with loginOutcome := fun _ _ => LoginOutcome.err warnMsg }
        (some ⟨some "reg.example.com", some "user", some "SECRETKEY"⟩) none
        (fun k => if k = "SECRETKEY" then some "pw" else none) "s1" "img"
      = authenticateAndPullImage
        { envBase with loginOutcome := fun _ _ => LoginOutcome.ok }
        (some ⟨some "reg.example.com", some "user", some "SECRETKEY"⟩) none
        (fun k => if k = "SECRETKEY" then some "pw" else none) "s1" "img" :=
  c9_unencrypted_warning_treated_as_success envBase
    (some ⟨some "reg.example.com", some "user", some "SECRETKEY"⟩) none
    (fun k => if k = "SECRETKEY" then some "pw" else none) "s1" "img" warnMsg
    (by decide)

/-- Claim C5: a pull preceded by a registry login is followed by exactly
one logout against the same registry, after the pull, whatever the pull
outcome; with no login, no logout is issued. -/
theorem c5_login_logout_pairing (env : Env) (entryReg : Option Registry)
    (glob : Option DockerGlobalConfig) (secrets : Smap) (server image : String) :
    countEv (Event.login server (resolveImageRegistry entryReg glob))
        (authenticateAndPullImage env entryReg glob secrets server image).1
      = countEv (Event.logout server (resolveImageRegistry entryReg glob))
          (authenticateAndPullImage env entryReg glob secrets server image).1
    ∧ countEv (Event.login server (resolveImageRegistry entryReg glob))
        (authenticateAndPullImage env entryReg glob secrets server image).1 ≤ 1
    ∧ ∃ pre post,
        (authenticateAndPullImage env entryReg glob secrets server image).1
          = pre ++ Event.pull server image :: post
        ∧ countEv (Event.logout server (resolveImageRegistry entryReg glob)) pre = 0
        ∧ countEv (Event.login server (resolveImageRegistry entryReg glob)) post = 0 := by
  rw [authenticateAndPullImage_trace]
  cases resolveLoginCreds entryReg glob secrets with
  | none =>
    refine ⟨by simp [countEv], by simp [countEv], [], [], by simp, by simp [countEv],
      by simp [countEv]⟩
  | some c =>
    refine ⟨by simp [countEv], by simp [countEv],
      [Event.login server (resolveImageRegistry entryReg glob)],
      [Event.logout server (resolveImageRegistry entryReg glob)],
      by simp, by simp [countEv], by simp [countEv]⟩

/-- The service replacement step, in closed form. -/
theorem replaceServiceContainer_eq (env : Env) (svc : ServiceEntry) (server : String) :
    replaceServiceContainer env svc server
      = ((if env.stopOk server svc.name
          then [Event.stopC server svc.name, Event.removeC server svc.name]
          else [Event.stopC server svc.name]) ++ [Event.createC server svc.name],
         if env.createOk server svc.name then none
         else some ("Failed to create container " ++ svc.name)) := rfl

/-- Claim C6: per (service, server), replacement runs
authenticate-and-pull, then best-effort stop and remove of the stable
name (a stop/remove failure does not prevent the create), then create
under the same name, then prune — and the prune happens only after a
successful create, while a create failure is the error of the step. -/
theorem c6_service_replacement_order (env : Env) (cfg : LumaConfig)
    (secrets : Smap) (svc : ServiceEntry) (server : String)
    (hconn : env.connectOk server = true)
    (hpull : env.pullOk server svc.image = true) :
    deployServiceToServer env cfg secrets svc server
      = (authenticateAndPullImage env svc.registry cfg.docker secrets server svc.image).1
        ++ ((if env.stopOk server svc.name
             then [Event.stopC server svc.name, Event.removeC server svc.name]
             else [Event.stopC server svc.name])
          ++ ([Event.createC server svc.name]
            ++ (if env.createOk server svc.name then [Event.prune server] else [])))
    ∧ (replaceServiceContainer env svc server).2
      = (if env.createOk server svc.name then none
         else some ("Failed to create container " ++ svc.name)) := by
  refine ⟨?_, rfl⟩
  unfold deployServiceToServer
  rw [if_pos hconn]
  have herr := authenticateAndPullImage_err env svc.registry cfg.docker secrets
    server svc.image
  rw [hpull] at herr
  simp only [if_true] at herr
  cases hauth : authenticateAndPullImage env svc.registry cfg.docker secrets server
      svc.image with
  | mk evs err =>
    rw [hauth] at herr
    simp only at herr
    subst herr
    simp only
    rw [replaceServiceContainer_eq]
    by_cases hcr : env.createOk server svc.name = true
    · rw [if_pos hcr, if_pos hcr]
      simp [List.append_assoc]
    · rw [if_neg hcr, if_neg hcr]
      simp [List.append_assoc]

/-- Witness for Claim C6: redeploy of service `db` with every call
succeeding — pull, stop, remove, create, prune in order, no error. -/
theorem c6_witness :
    deployServiceToServer envBase cfgEmpty secretsEmpty dbService "s1"
      = [Event.pull "s1" "postgres:15", Event.stopC "s1" "db",
         Event.removeC "s1" "db", Event.createC "s1" "db", Event.prune "s1"]
    ∧ (replaceServiceContainer envBase dbService "s1").2 = none := by
  have h := c6_service_replacement_order envBase cfgEmpty secretsEmpty dbService "s1"
    rfl rfl
  refine ⟨?_, ?_⟩
  · rw [h.1]; decide
  · rw [h.2]; decide

/-- Claim C3: in an app run, the trace splits into a prefix of build and
push events and a suffix with none; when the build phase throws, the
suffix is empty (no server was mutated) and the run reports the error. -/
theorem c3_build_push_before_any_server_mutation (env : Env) (cfg : LumaConfig)
    (secrets : Smap) (releaseId : String) (entries : List Entry) :
    ∃ b d, (deployEntries env cfg secrets releaseId false entries).1 = b ++ d
      ∧ (∀ e ∈ b, isBuildPush e = true)
      ∧ (∀ e ∈ d, isBuildPush e = false)
      ∧ ((runSeq (buildAndPushApp env) (appsOf entries)).2.isSome = true →
          d = []
          ∧ (deployEntries env cfg secrets releaseId false entries).2.isSome = true) := by
  unfold deployEntries
  simp only [Bool.false_eq_true, if_false]
  cases hb : runSeq (buildAndPushApp env) (appsOf entries) with
  | mk bEvs bErr =>
    have hball : ∀ e ∈ bEvs, isBuildPush e = true := by
      intro e he
      have hx := runSeq_events (buildAndPushApp env) (fun e => isBuildPush e = true)
        (buildAndPushApp_events env) (appsOf entries) e
      rw [hb] at hx
      exact hx he
    cases bErr with
    | some msg =>
      exact ⟨bEvs, [], by simp, hball, by simp, fun _ => ⟨rfl, by simp⟩⟩
    | none =>
      refine ⟨bEvs,
        (runSeq (deployAppToServers env cfg secrets releaseId) (appsOf entries)).1,
        rfl, hball, ?_, ?_⟩
      · intro e he
        exact runSeq_events (deployAppToServers env cfg secrets releaseId)
          (fun e => isBuildPush e = false)
          (deployAppToServers_no_buildPush env cfg secrets releaseId)
          (appsOf entries) e he
      · intro hcontra
        simp at hcontra

/-- Claim C1 counterexample: app `web` with servers `[s1, s2]` and a
blue-green failure on `s1`.  The failure is rethrown, so `s2` — a
remaining sibling server — is never processed: no pull and no blue-green
run happens for it, contradicting the claim that every remaining
(app, server) pair is still processed.  The run does report failure. -/
theorem c1_counterexample :
    (deployAppToServer envBgFailS1 cfgWeb secretsEmpty "r1" webApp "s1").2.isSome = true
    ∧ deployAppToServers envBgFailS1 cfgWeb secretsEmpty "r1" webApp
        = ([Event.pull "s1" "img/web:r1", Event.blueGreen "web" "s1"],
           some "Deployment failed")
    ∧ Event.pull "s2" "img/web:r1"
        ∉ (deployAppToServers envBgFailS1 cfgWeb secretsEmpty "r1" webApp).1
    ∧ Event.blueGreen "web" "s2"
        ∉ (deployAppToServers envBgFailS1 cfgWeb secretsEmpty "r1" webApp).1
    ∧ (deployCommand envBgFailS1 argsNone cfgWeb secretsEmpty "r1").2 = 1 := by
  exact ⟨by decide, by decide, by decide, by decide, by decide⟩

/-- Claim C1 as amended: a deployment failure scoped to one (app, server)
pair is logged and rethrown, so it aborts deployment to the remaining
sibling servers of that app and to the remaining sibling app entries (each
loop stops at the first failing element, contributing only the traces up
to and including the failure), and the run as a whole reports failure. -/
theorem c1_amended_failure_aborts_siblings (env : Env) (cfg : LumaConfig)
    (secrets : Smap) (releaseId : String) (a : AppEntry)
    (sPre sPost : List String) (s : String) (ePre ePost : List AppEntry)
    (hsv : a.servers = sPre ++ s :: sPost)
    (hpre : ∀ x ∈ sPre, (deployAppToServer env cfg secrets releaseId a x).2 = none)
    (hs : (deployAppToServer env cfg secrets releaseId a s).2.isSome = true)
    (hepre : ∀ y ∈ ePre, (deployAppToServers env cfg secrets releaseId y).2 = none) :
    deployAppToServers env cfg secrets releaseId a
      = ((sPre.map (fun x => (deployAppToServer env cfg secrets releaseId a x).1)).flatten
          ++ (deployAppToServer env cfg secrets releaseId a s).1,
         (deployAppToServer env cfg secrets releaseId a s).2)
    ∧ runSeq (deployAppToServers env cfg secrets releaseId) (ePre ++ a :: ePost)
      = ((ePre.map (fun y => (deployAppToServers env cfg secrets releaseId y).1)).flatten
          ++ (deployAppToServers env cfg secrets releaseId a).1,
         (deployAppToServers env cfg secrets releaseId a).2)
    ∧ (runSeq (deployAppToServers env cfg secrets releaseId)
        (ePre ++ a :: ePost)).2.isSome = true := by
  have h1 : deployAppToServers env cfg secrets releaseId a
      = ((sPre.map (fun x => (deployAppToServer env cfg secrets releaseId a x).1)).flatten
          ++ (deployAppToServer env cfg secrets releaseId a s).1,
         (deployAppToServer env cfg secrets releaseId a s).2) := by
    unfold deployAppToServers
    rw [hsv]
    exact runSeq_append_abort _ sPre s sPost hpre hs
  have hiso : (deployAppToServers env cfg secrets releaseId a).2.isSome = true := by
    rw [h1]
    exact hs
  have h2 := runSeq_append_abort (deployAppToServers env cfg secrets releaseId)
    ePre a ePost hepre hiso
  refine ⟨h1, h2, ?_⟩
  rw [h2]
  exact hiso

/-- Witness for the amended Claim C1: the concrete two-server app with
the blue-green failure on its first server, as the only entry. -/
theorem c1_amended_witness :
    deployAppToServers envBgFailS1 cfgWeb secretsEmpty "r1" webApp
      = ((([] : List String).map
            (fun x => (deployAppToServer envBgFailS1 cfgWeb secretsEmpty "r1" webApp x).1)).flatten
          ++ (deployAppToServer envBgFailS1 cfgWeb secretsEmpty "r1" webApp "s1").1,
         (deployAppToServer envBgFailS1 cfgWeb secretsEmpty "r1" webApp "s1").2)
    ∧ runSeq (deployAppToServers envBgFailS1 cfgWeb secretsEmpty "r1")
        ([] ++ webApp :: [])
      = ((([] : List AppEntry).map
            (fun y => (deployAppToServers envBgFailS1 cfgWeb secretsEmpty "r1" y).1)).flatten
          ++ (deployAppToServers envBgFailS1 cfgWeb secretsEmpty "r1" webApp).1,
         (deployAppToServers envBgFailS1 cfgWeb secretsEmpty "r1" webApp).2)
    ∧ (runSeq (deployAppToServers envBgFailS1 cfgWeb secretsEmpty "r1")
        ([] ++ webApp :: [])).2.isSome = true :=
  c1_amended_failure_aborts_siblings envBgFailS1 cfgWeb secretsEmpty "r1" webApp
    [] ["s2"] "s1" [] [] (by decide) (by simp) (by decide) (by simp)

/-- A transport error anywhere in the verification try block of one host
— the SSH connect, the network existence call, or the proxy liveness
call throwing — lands in the catch, which appends the host to both the
missing-network and the missing-proxy contributions. -/
theorem probeServer_transport_error_both (env : Env) (s : String)
    (h : env.connectOk s = false ∨ env.netProbeOk s = false
      ∨ env.proxyProbeOk s = false) :
    s ∈ (probeServer env s).1 ∧ s ∈ (probeServer env s).2 := by
  unfold probeServer
  by_cases hc : env.connectOk s = true
  · rw [if_pos hc]
    by_cases hn : env.netProbeOk s = true
    · rw [if_pos hn]
      by_cases hp : env.proxyProbeOk s = true
      · exfalso
        rcases h with h | h | h <;> simp_all
      · rw [if_neg hp]
        exact ⟨List.mem_append_right _ (List.mem_singleton.mpr rfl),
          List.mem_singleton.mpr rfl⟩
    · rw [if_neg hn]
      exact ⟨List.mem_singleton.mpr rfl, List.mem_singleton.mpr rfl⟩
  · rw [if_neg hc]
    exact ⟨List.mem_singleton.mpr rfl, List.mem_singleton.mpr rfl⟩

/-- Claim C4: infrastructure verification probes every distinct server of
the resolved target entries; a transport error anywhere while probing a
host — connect, network probe, or proxy probe throwing — puts that host
on both missing lists; and when either aggregated list is non-empty the
run stops right there with a non-zero status and a trace holding nothing
but the read-only probes — no build, pull, push or container mutation on
any server. -/
theorem c4_infrastructure_gate (env : Env) (args : Args) (cfg : LumaConfig)
    (secrets : Smap) (releaseId : String)
    (hgit : checkUncommittedChanges args.force env = none)
    (hcfg : env.configLoadOk = true)
    (hne : ((identifyTargetEntries args.entryNames args.servicesFlag cfg).1).isEmpty
        = false)
    (hfail : 0 < (verifyInfrastructure env
          (identifyTargetEntries args.entryNames args.servicesFlag cfg).1).2.1.length
        ∨ 0 < (verifyInfrastructure env
          (identifyTargetEntries args.entryNames args.servicesFlag cfg).1).2.2.length) :
    deployCommand env args cfg secrets releaseId
      = ((verifyInfrastructure env
          (identifyTargetEntries args.entryNames args.servicesFlag cfg).1).1, 1)
    ∧ (∀ e ∈ (deployCommand env args cfg secrets releaseId).1, isMutation e = false)
    ∧ (∀ en ∈ (identifyTargetEntries args.entryNames args.servicesFlag cfg).1,
        ∀ s ∈ en.servers,
          Event.probe s ∈ (deployCommand env args cfg secrets releaseId).1)
    ∧ (∀ s ∈ allTargetServers (identifyTargetEntries args.entryNames args.servicesFlag cfg).1,
        env.connectOk s = false ∨ env.netProbeOk s = false
          ∨ env.proxyProbeOk s = false →
          s ∈ (verifyInfrastructure env
              (identifyTargetEntries args.entryNames args.servicesFlag cfg).1).2.1
          ∧ s ∈ (verifyInfrastructure env
              (identifyTargetEntries args.entryNames args.servicesFlag cfg).1).2.2) := by
  have h1 : deployCommand env args cfg secrets releaseId
      = ((verifyInfrastructure env
          (identifyTargetEntries args.entryNames args.servicesFlag cfg).1).1, 1) := by
    unfold deployCommand
    rw [hgit]
    have hcond : ((verifyInfrastructure env
          (identifyTargetEntries args.entryNames args.servicesFlag cfg).1).2.1.length > 0
        || (verifyInfrastructure env
          (identifyTargetEntries args.entryNames args.servicesFlag cfg).1).2.2.length > 0)
        = true := by
      rcases hfail with h | h <;> simp [h]
    simp [hcfg, hne, hcond]
  refine ⟨h1, ?_, ?_, ?_⟩
  · intro e he
    rw [h1] at he
    unfold verifyInfrastructure at he
    simp only at he
    rcases List.mem_map.mp he with ⟨s, _, rfl⟩
    rfl
  · intro en hen s hs
    rw [h1]
    unfold verifyInfrastructure
    simp only
    exact List.mem_map_of_mem Event.probe
      (mem_allTargetServers _ en s hen hs)
  · intro s hs htrans
    have hboth := probeServer_transport_error_both env s htrans
    constructor
    · unfold verifyInfrastructure
      simp only
      exact List.mem_flatten.mpr ⟨(probeServer env s).1,
        List.mem_map.mpr ⟨s, hs, rfl⟩, hboth.1⟩
    · unfold verifyInfrastructure
      simp only
      exact List.mem_flatten.mpr ⟨(probeServer env s).2,
        List.mem_map.mpr ⟨s, hs, rfl⟩, hboth.2⟩

/-- Witness for Claim C4: the two-server app with the SSH connect and the
network probe succeeding but the proxy liveness probe throwing on every
host — the transport error mid-try lands each host on both lists, the
run exits 1 with a probe-only trace. -/
theorem c4_witness :
    deployCommand envProxyProbeThrows argsNone cfgWeb secretsEmpty "r1"
      = ((verifyInfrastructure envProxyProbeThrows
          (identifyTargetEntries [] false cfgWeb).1).1, 1)
    ∧ (∀ e ∈ (deployCommand envProxyProbeThrows argsNone cfgWeb secretsEmpty "r1").1,
        isMutation e = false)
    ∧ (∀ en ∈ (identifyTargetEntries [] false cfgWeb).1, ∀ s ∈ en.servers,
        Event.probe s
          ∈ (deployCommand envProxyProbeThrows argsNone cfgWeb secretsEmpty "r1").1)
    ∧ (∀ s ∈ allTargetServers (identifyTargetEntries [] false cfgWeb).1,
        envProxyProbeThrows.connectOk s = false
          ∨ envProxyProbeThrows.netProbeOk s = false
          ∨ envProxyProbeThrows.proxyProbeOk s = false →
          s ∈ (verifyInfrastructure envProxyProbeThrows
              (identifyTargetEntries [] false cfgWeb).1).2.1
          ∧ s ∈ (verifyInfrastructure envProxyProbeThrows
              (identifyTargetEntries [] false cfgWeb).1).2.2) :=
  c4_infrastructure_gate envProxyProbeThrows argsNone cfgWeb secretsEmpty "r1"
    (by decide) rfl (by decide) (Or.inl (by decide))

/-- Claim C8 counterexample: no entry-level registry and no project-level
registry url, but a project-level username with the project-wide password
secret present.  The claim says this resolves to the default public
registry with no credentials and no login performed; the code resolves
the url to docker.io yet still resolves the project credentials and
performs a login against docker.io — credentials and url are merged
across levels. -/
theorem c8_counterexample :
    resolveImageRegistry none (some globNoUrl) = "docker.io"
    ∧ resolveLoginCreds none (some globNoUrl) secretsGlobal
        = some ⟨"globaluser", "gpw"⟩
    ∧ Event.login "s1" "docker.io"
        ∈ (authenticateAndPullImage envBase none (some globNoUrl) secretsGlobal
            "s1" "img").1 := by
  exact ⟨rfl, by decide, by decide⟩

/-- Claim C8 as amended: the registry url and the credential pair are
resolved independently, not as one atomic level: the url is the first set
value among entry url, project registry, docker.io; the credentials are
the entry pair when the entry gate (username and secret reference both
set) holds — with no fallback past that gate — else the project pair when
username and `DOCKER_REGISTRY_PASSWORD` are set, else none; and a login
with matching logout happens exactly when credentials resolved, against
the independently resolved url, so cross-level combinations occur. -/
theorem c8_amended_independent_resolution (env : Env) (r : Registry)
    (entryReg : Option Registry) (u1 u2 : Option String)
    (glob : Option DockerGlobalConfig) (secrets : Smap) (server image : String) :
    resolveLoginCreds (some { r with url := u1 }) glob secrets
      = resolveLoginCreds (some { r with url := u2 }) glob secrets
    ∧ resolveImageRegistry (some { r with username := u1, password_secret := u2 }) glob
      = resolveImageRegistry (some r) glob
    ∧ (authenticateAndPullImage env entryReg glob secrets server image).1
      = (match resolveLoginCreds entryReg glob secrets with
         | some _ =>
           [Event.login server (resolveImageRegistry entryReg glob),
            Event.pull server image,
            Event.logout server (resolveImageRegistry entryReg glob)]
         | none => [Event.pull server image]) :=
  ⟨rfl, rfl, authenticateAndPullImage_trace env entryReg glob secrets server image⟩

end Luma
